import Mathlib

/-!
Shallow embedding of the dwm window manager (X11 build path of this fork):
the client/monitor data model and the operations `applyrules`,
`applysizehints`, `resize`, `tile`, `monocle`, `view`, `toggletag`,
`setmfact`, `setfullscreen` and `detachstack`, translated from dwm.c and
config.h, together with theorems about them.

Machine integers of the source (`int`) are modelled as `Int`; the
`unsigned int` accumulators of `tile` (`my`, `ty`, `h`) are modelled as
`Int` as well, which agrees with the source whenever no unsigned
wrap-around occurs (true on all inputs considered here).  C `float`
values (`mfact`, `mina`, `maxa`) are modelled as `ℚ`, with
float-to-integer conversion modelled as truncation toward zero.
-/

namespace Dwm

/-- config.h: `LENGTH(tags)` where `tags = { "1", ..., "9" }`. -/
def tagsLength : Nat := 9

/-- dwm.c: `#define TAGMASK ((1 << LENGTH(tags)) - 1)`. -/
def TAGMASK : Nat := (1 <<< tagsLength) - 1

/-- config.h: `static const Bool resizehints = True`. -/
def resizehints : Bool := true

/-- dwm.c: `#define MAX(A, B) ((A) > (B) ? (A) : (B))`. -/
def cMAX (a b : Int) : Int := if a > b then a else b

/-- dwm.c: `#define MIN(A, B) ((A) < (B) ? (A) : (B))`. -/
def cMIN (a b : Int) : Int := if a < b then a else b

/-- C float-to-integer conversion: truncation toward zero (`Int.tdiv`
of the exact rational's numerator by its denominator). -/
def cTrunc (q : ℚ) : Int := q.num.tdiv (q.den : Int)

/-- The fields of `struct Client` (dwm.c) used by the verified operations.
`win` is the X window handle, the identity of a client. -/
structure Client where
  win : Nat
  name : List Char
  mina : ℚ
  maxa : ℚ
  x : Int
  y : Int
  w : Int
  h : Int
  oldx : Int
  oldy : Int
  oldw : Int
  oldh : Int
  basew : Int
  baseh : Int
  incw : Int
  inch : Int
  maxw : Int
  maxh : Int
  minw : Int
  minh : Int
  bw : Int
  oldbw : Int
  tags : Nat
  isfloating : Bool
  oldstate : Bool
  isfullscreen : Bool

/-- The fields of `struct Monitor` (dwm.c) used by the verified operations.
`seltags` alternates between 0 and 1 (`seltags ^= 1`), modelled as `Bool`;
the two-element array `tagset[2]` is modelled as the pair
`tagset0`/`tagset1`.  `ltArrange` abstracts `lt[sellt]->arrange != NULL`.
`nmaster` is an `int` in the source but is kept nonnegative by
`incnmaster` (`MAX(selmon->nmaster + arg->i, 0)`), so it is a `Nat` here. -/
structure Monitor where
  ltsymbol : String
  mfact : ℚ
  nmaster : Nat
  num : Int
  mx : Int
  my : Int
  mw : Int
  mh : Int
  wx : Int
  wy : Int
  ww : Int
  wh : Int
  seltags : Bool
  tagset0 : Nat
  tagset1 : Nat
  ltArrange : Bool
  clients : List Client
  stack : List Client
  sel : Option Client

/-- `m->tagset[s]`. -/
def Monitor.tagsetAt (m : Monitor) (s : Bool) : Nat :=
  if s then m.tagset1 else m.tagset0

/-- `m->tagset[m->seltags]`, the currently selected tagset. -/
def Monitor.selTagset (m : Monitor) : Nat := m.tagsetAt m.seltags

/-- dwm.c: `#define ISVISIBLE(C) ((C->tags & C->mon->tagset[C->mon->seltags]))`,
with the client's monitor passed explicitly. -/
def ISVISIBLE (m : Monitor) (c : Client) : Bool :=
  c.tags &&& m.selTagset != 0

/-- dwm.c: `#define WIDTH(X) ((X)->w + 2 * (X)->bw)`. -/
def WIDTH (c : Client) : Int := c.w + 2 * c.bw

/-- dwm.c: `#define HEIGHT(X) ((X)->h + 2 * (X)->bw)`. -/
def HEIGHT (c : Client) : Int := c.h + 2 * c.bw

/-! ### view, toggletag, setmfact -/

/-- dwm.c `view`: the effect on the monitor's tag state.
```
if((arg->ui & TAGMASK) == selmon->tagset[selmon->seltags]) return;
selmon->seltags ^= 1;
if(arg->ui & TAGMASK)
  selmon->tagset[selmon->seltags] = arg->ui & TAGMASK;
```
(the subsequent `focus(NULL); arrange(selmon);` affect no tag state). -/
def view (ui : Nat) (m : Monitor) : Monitor :=
  if ui &&& TAGMASK = m.selTagset then m
  else
    let m1 := { m with seltags := !m.seltags }
    if ui &&& TAGMASK ≠ 0 then
      if m1.seltags then { m1 with tagset1 := ui &&& TAGMASK }
      else { m1 with tagset0 := ui &&& TAGMASK }
    else m1

/-- dwm.c `toggletag`: the effect on the selected client (`selmon->sel`),
`none` standing for `selmon->sel == NULL`:
```
if(!selmon->sel) return;
newtags = selmon->sel->tags ^ (arg->ui & TAGMASK);
if(newtags) { selmon->sel->tags = newtags; ... }
```
-/
def toggletag (ui : Nat) (sel : Option Client) : Option Client :=
  match sel with
  | none => none
  | some c =>
    let newtags := c.tags ^^^ (ui &&& TAGMASK)
    if newtags ≠ 0 then some { c with tags := newtags } else some c

/-- dwm.c `setmfact`: the target value
`f = arg->f < 1.0 ? arg->f + selmon->mfact : arg->f - 1.0`. -/
def setmfactTarget (f : ℚ) (m : Monitor) : ℚ :=
  if f < 1 then f + m.mfact else f - 1

/-- dwm.c `setmfact`:
```
if(!arg || !selmon->lt[selmon->sellt]->arrange) return;
f = arg->f < 1.0 ? arg->f + selmon->mfact : arg->f - 1.0;
if(f < 0.1 || f > 0.9) return;
selmon->mfact = f;
```
-/
def setmfact (f : ℚ) (m : Monitor) : Monitor :=
  if !m.ltArrange then m
  else
    let t := setmfactTarget f m
    if t < 1/10 ∨ t > 9/10 then m
    else { m with mfact := t }

/-! ### setfullscreen -/

/-- dwm.c `resizeclient`: commit a geometry, saving the previous one. -/
def resizeclient (c : Client) (x y w h : Int) : Client :=
  { c with oldx := c.x, x := x, oldy := c.y, y := y,
           oldw := c.w, w := w, oldh := c.h, h := h }

/-- dwm.c `setfullscreen` (X11 path), restricted to the client state:
entering saves `oldstate`/`oldbw`, clears the border, floats the client
and resizes it to the monitor's full screen rectangle; leaving restores
`isfloating`, `bw` and the saved geometry. -/
def setfullscreen (m : Monitor) (c : Client) (fullscreen : Bool) : Client :=
  if fullscreen then
    let c1 := { c with isfullscreen := true, oldstate := c.isfloating,
                       oldbw := c.bw, bw := 0, isfloating := true }
    resizeclient c1 m.mx m.my m.mw m.mh
  else
    let c1 := { c with isfullscreen := false, isfloating := c.oldstate,
                       bw := c.oldbw, x := c.oldx, y := c.oldy,
                       w := c.oldw, h := c.oldh }
    resizeclient c1 c1.x c1.y c1.w c1.h

/-! ### applysizehints, resize, tile, monocle -/

/-- The x-coordinate clamps at the top of dwm.c `applysizehints`
(`interact` uses the screen width `sw`, otherwise the monitor work area):
```
if(interact) {
  if(*x > sw) *x = sw - WIDTH(c);
  if(*x + *w + 2 * c->bw < 0) *x = 0;
} else {
  if(*x >= m->wx + m->ww) *x = m->wx + m->ww - WIDTH(c);
  if(*x + *w + 2 * c->bw <= m->wx) *x = m->wx;
}
```
-/
def ashPosX (m : Monitor) (sw : Int) (c : Client) (interact : Bool)
    (x w : Int) : Int :=
  if interact then
    let x1 := if x > sw then sw - WIDTH c else x
    if x1 + w + 2 * c.bw < 0 then 0 else x1
  else
    let x1 := if x ≥ m.wx + m.ww then m.wx + m.ww - WIDTH c else x
    if x1 + w + 2 * c.bw ≤ m.wx then m.wx else x1

/-- The y-coordinate clamps of dwm.c `applysizehints`, mirror of
`ashPosX` with `sh`, `wy`, `wh` and `HEIGHT`. -/
def ashPosY (m : Monitor) (sh : Int) (c : Client) (interact : Bool)
    (y h : Int) : Int :=
  if interact then
    let y1 := if y > sh then sh - HEIGHT c else y
    if y1 + h + 2 * c.bw < 0 then 0 else y1
  else
    let y1 := if y ≥ m.wy + m.wh then m.wy + m.wh - HEIGHT c else y
    if y1 + h + 2 * c.bw ≤ m.wy then m.wy else y1

/-- The size-hints block of dwm.c `applysizehints` (the body of
`if(resizehints || c->isfloating || !c->mon->lt[c->mon->sellt]->arrange)`):
base-size removal, aspect-ratio limits (float arithmetic modelled on ℚ,
`+ 0.5` and assignment to int modelled by `cTrunc`), increment rounding
(C `%` is `Int.tmod`), and min/max clamping. -/
def hintAdjust (c : Client) (w0 h0 : Int) : Int × Int :=
  let p1 := if ¬(c.basew = c.minw ∧ c.baseh = c.minh)
            then (w0 - c.basew, h0 - c.baseh) else (w0, h0)
  let p2 :=
    if 0 < c.mina ∧ 0 < c.maxa then
      if c.maxa < (p1.1 : ℚ) / (p1.2 : ℚ) then
        (cTrunc ((p1.2 : ℚ) * c.maxa + 1/2), p1.2)
      else if c.mina < (p1.2 : ℚ) / (p1.1 : ℚ) then
        (p1.1, cTrunc ((p1.1 : ℚ) * c.mina + 1/2))
      else p1
    else p1
  let p3 := if c.basew = c.minw ∧ c.baseh = c.minh
            then (p2.1 - c.basew, p2.2 - c.baseh) else p2
  let w1 := if c.incw ≠ 0 then p3.1 - Int.tmod p3.1 c.incw else p3.1
  let h1 := if c.inch ≠ 0 then p3.2 - Int.tmod p3.2 c.inch else p3.2
  let w2 := cMAX (w1 + c.basew) c.minw
  let h2 := cMAX (h1 + c.baseh) c.minh
  let w3 := if c.maxw ≠ 0 then cMIN w2 c.maxw else w2
  let h3 := if c.maxh ≠ 0 then cMIN h2 c.maxh else h2
  (w3, h3)

/-- dwm.c `applysizehints`, returning the adjusted rectangle
`(x, y, w, h)` (the source writes through pointers and returns a dirty
flag; the dirty test lives in `resize`).  `bh` is the global bar height,
`sw`/`sh` the screen size. -/
def applysizehints (bh sw sh : Int) (m : Monitor) (c : Client)
    (x y w h : Int) (interact : Bool) : Int × Int × Int × Int :=
  let w1 := cMAX 1 w
  let h1 := cMAX 1 h
  let x1 := ashPosX m sw c interact x w1
  let y1 := ashPosY m sh c interact y h1
  let h2 := if h1 < bh then bh else h1
  let w2 := if w1 < bh then bh else w1
  let wh := if resizehints || c.isfloating || !m.ltArrange
            then hintAdjust c w2 h2 else (w2, h2)
  (x1, y1, wh.1, wh.2)

/-- dwm.c `resize`: apply the size hints and commit through
`resizeclient` iff the rectangle differs from the client's current
geometry. -/
def resize (bh sw sh : Int) (m : Monitor) (c : Client)
    (x y w h : Int) (interact : Bool) : Client :=
  let r := applysizehints bh sw sh m c x y w h interact
  if r.1 ≠ c.x ∨ r.2.1 ≠ c.y ∨ r.2.2.1 ≠ c.w ∨ r.2.2.2 ≠ c.h then
    resizeclient c r.1 r.2.1 r.2.2.1 r.2.2.2
  else c

/-- dwm.c `nexttiled` iterated over a whole client list: the visible,
non-floating clients in order. -/
def nexttiledList (m : Monitor) (cs : List Client) : List Client :=
  cs.filter (fun c => !c.isfloating && ISVISIBLE m c)

/-- The loop of dwm.c `tile`: walk the client list, skipping floating and
invisible clients; the first `nmaster` tiled clients go to the master
column (width `mw`), the rest to the stack column; `i`, `my`, `ty` are
the loop accumulators. -/
def tileLoop (bh sw sh : Int) (m : Monitor) (n : Nat) (mw : Int) :
    List Client → Nat → Int → Int → List Client
  | [], _, _, _ => []
  | c :: rest, i, my, ty =>
    if !c.isfloating && ISVISIBLE m c then
      if i < m.nmaster then
        let hh : Int := (m.wh - my) / (((min n m.nmaster) - i : Nat) : Int)
        let c2 := resize bh sw sh m c m.wx (m.wy + my)
                    (mw - 2 * c.bw) (hh - 2 * c.bw) false
        c2 :: tileLoop bh sw sh m n mw rest (i + 1) (my + HEIGHT c2) ty
      else
        let hh : Int := (m.wh - ty) / ((n - i : Nat) : Int)
        let c2 := resize bh sw sh m c (m.wx + mw) (m.wy + ty)
                    (m.ww - mw - 2 * c.bw) (hh - 2 * c.bw) false
        c2 :: tileLoop bh sw sh m n mw rest (i + 1) my (ty + HEIGHT c2)
    else
      c :: tileLoop bh sw sh m n mw rest i my ty

/-- dwm.c `tile`: count the tiled clients, compute the master width
`mw = n > nmaster ? (nmaster ? ww * mfact : 0) : ww` (float product
truncated), and run the loop.  The source's `unsigned int` accumulators
are modelled as `Int`, which agrees with the source whenever no unsigned
wrap-around occurs. -/
def tile (bh sw sh : Int) (m : Monitor) : Monitor :=
  let n := (nexttiledList m m.clients).length
  if n = 0 then m
  else
    let mw : Int :=
      if n > m.nmaster then
        (if m.nmaster ≠ 0 then cTrunc ((m.ww : ℚ) * m.mfact) else 0)
      else m.ww
    { m with clients := tileLoop bh sw sh m n mw m.clients 0 0 0 }

/-- dwm.c `monocle`: count the visible clients (floating ones included),
override the layout symbol with `"[n]"` when the count is positive, and
resize every tiled client to the full work area minus its borders. -/
def monocle (bh sw sh : Int) (m : Monitor) : Monitor :=
  let n := (m.clients.filter (ISVISIBLE m)).length
  let sym := if n > 0 then "[" ++ toString n ++ "]" else m.ltsymbol
  { m with ltsymbol := sym,
           clients := m.clients.map (fun c =>
             if !c.isfloating && ISVISIBLE m c then
               resize bh sw sh m c m.wx m.wy
                 (m.ww - 2 * c.bw) (m.wh - 2 * c.bw) false
             else c) }

/-! ### detachstack and applyrules -/

/-- dwm.c `detachstack`: unlink `c` from its monitor's focus stack
(removal of the first pointer-equal node, modelled as removal of the
first client with the same `win`); if `c` was the selected client, the
selection moves to the topmost visible client of the remaining stack
(`NULL`, i.e. `none`, when there is none). -/
def detachstack (c : Client) (m : Monitor) : Monitor :=
  let st := m.stack.eraseP (fun t => t.win == c.win)
  let sel := match m.sel with
    | some s => if s.win == c.win then st.find? (ISVISIBLE m) else m.sel
    | none => m.sel
  { m with stack := st, sel := sel }

/-- C `strstr(hay, nee) != NULL`: `nee` occurs as a substring of `hay`. -/
def strstrB (hay nee : List Char) : Bool :=
  match hay with
  | [] => nee.isEmpty
  | _ :: t => nee.isPrefixOf hay || strstrB t nee

/-- config.h `Rule`: `class` and `instance` are keywords in Lean, so the
fields are named `cls` and `inst`. -/
structure Rule where
  cls : Option (List Char)
  inst : Option (List Char)
  title : Option (List Char)
  tags : Nat
  isfloating : Bool
  monitor : Int

/-- config.h: the static rules table
`{ "Gimp", NULL, NULL, 0, True, -1 }, { "Firefox", NULL, NULL, 1 << 8, False, -1 }`. -/
def rules : List Rule :=
  [ { cls := some "Gimp".toList, inst := none, title := none,
      tags := 0, isfloating := true, monitor := -1 },
    { cls := some "Firefox".toList, inst := none, title := none,
      tags := 1 <<< 8, isfloating := false, monitor := -1 } ]

/-- dwm.c `applyrules` rule match:
`(!r->title || strstr(c->name, r->title)) && (!r->class || strstr(class, r->class)) && (!r->instance || strstr(instance, r->instance))`. -/
def ruleMatches (r : Rule) (name cls inst : List Char) : Bool :=
  (match r.title with | none => true | some t => strstrB name t) &&
  (match r.cls with | none => true | some s => strstrB cls s) &&
  (match r.inst with | none => true | some s => strstrB inst s)

/-- dwm.c `applyrules`: scan the whole rules table; every matching rule
overwrites `isfloating`, ORs its `tags` into `c->tags` and, when a
monitor with the rule's number exists, moves the client there.  After
the loop the source executes
```
c->tags = c->mon->tagset[c->mon->seltags];
c->tags = c->tags & TAGMASK ? c->tags & TAGMASK : c->mon->tagset[c->mon->seltags];
```
Returns `(tags, isfloating, monitor)` of the client. -/
def applyrules (name cls inst : List Char) (mons : List Monitor)
    (mon0 : Monitor) : Nat × Bool × Monitor :=
  let res := rules.foldl (fun (acc : Nat × Bool × Monitor) r =>
    if ruleMatches r name cls inst then
      let mon1 := match mons.find? (fun mm => mm.num == r.monitor) with
        | some mm => mm
        | none => acc.2.2
      (acc.1 ||| r.tags, r.isfloating, mon1)
    else acc) (0, false, mon0)
  let t1 := res.2.2.selTagset
  let t2 := if t1 &&& TAGMASK ≠ 0 then t1 &&& TAGMASK else res.2.2.selTagset
  (t2, res.2.1, res.2.2)

/-- The union of the `tags` masks of all rules matching a client, the
quantity the specification says a matching client's tags are set to
(when nonzero, after masking with TAGMASK). -/
def matchedRuleTags (name cls inst : List Char) : Nat :=
  (rules.filter (fun r => ruleMatches r name cls inst)).foldl
    (fun a r => a ||| r.tags) 0

/-! ### concrete sample states used in closed theorems -/

/-- A concrete monitor for witnesses: 1000x700 screen, work area equal to
the screen (no bar), the default `mfact = 0.55` and `nmaster = 1` of
config.h, viewing tag 1. -/
def sampleMon : Monitor :=
  { ltsymbol := "[]=", mfact := 11/20, nmaster := 1, num := 0,
    mx := 0, my := 0, mw := 1000, mh := 700,
    wx := 0, wy := 0, ww := 1000, wh := 700,
    seltags := false, tagset0 := 1, tagset1 := 1, ltArrange := true,
    clients := [], stack := [], sel := none }

/-- A concrete non-fullscreen client at (100,100,400,300) with border 1 and
no size hints, on tag 1; used in witnesses. -/
def sampleClient : Client :=
  { win := 1, name := [], mina := 0, maxa := 0,
    x := 100, y := 100, w := 400, h := 300,
    oldx := 0, oldy := 0, oldw := 0, oldh := 0,
    basew := 0, baseh := 0, incw := 0, inch := 0,
    maxw := 0, maxh := 0, minw := 0, minh := 0,
    bw := 1, oldbw := 0, tags := 1,
    isfloating := false, oldstate := false, isfullscreen := false }

/-- The width pipeline of `applysizehints` for a client without increment
and aspect hints: `MAX(1,·)`, bar-height clamp, then min/max clamping. -/
def ashSizeW (c : Client) (bh w : Int) : Int :=
  let w1 := cMAX 1 w
  let w2 := if w1 < bh then bh else w1
  if c.maxw ≠ 0 then cMIN (cMAX w2 c.minw) c.maxw else cMAX w2 c.minw

/-- The height pipeline of `applysizehints` for a client without increment
and aspect hints. -/
def ashSizeH (c : Client) (bh h : Int) : Int :=
  let h1 := cMAX 1 h
  let h2 := if h1 < bh then bh else h1
  if c.maxh ≠ 0 then cMIN (cMAX h2 c.minh) c.maxh else cMAX h2 c.minh

/-- A client whose size hints impose no constraint: all hint fields of
`XSizeHints` unset (zero), as `updatesizehints` leaves them. -/
def trivialHints (c : Client) : Prop :=
  c.basew = 0 ∧ c.baseh = 0 ∧ c.incw = 0 ∧ c.inch = 0 ∧
  c.maxw = 0 ∧ c.maxh = 0 ∧ c.minw = 0 ∧ c.minh = 0 ∧
  c.mina = 0 ∧ c.maxa = 0

instance (c : Client) : Decidable (trivialHints c) := by
  unfold trivialHints; infer_instance

/-- A client with an increment hint `incw = 3` and a maximum width
`maxw = 7` that is not a multiple of it; the C7 counterexample. -/
def incClient : Client :=
  { sampleClient with incw := 3, maxw := 7, bw := 0 }

/-- A monitor with one visible hint-free client, for the C3 witness. -/
def monoMon : Monitor := { sampleMon with clients := [sampleClient] }

/-- A visible non-floating client whose `minw` hint (2000) exceeds the
monitor work-area width. -/
def minwClient : Client := { sampleClient with minw := 2000, bw := 0 }

/-- A monitor whose only client is `minwClient`. -/
def minwMon : Monitor := { sampleMon with clients := [minwClient] }

/-- Tiled client A of the C2 scenario (geometry fields are irrelevant to
the outcome; they only feed the dirty test). -/
def clientA : Client :=
  { sampleClient with
    win := 10, x := 0, y := 0, w := 0, h := 0 }

/-- Tiled client B of the C2 scenario. -/
def clientB : Client :=
  { sampleClient with
    win := 11, x := 0, y := 0, w := 0, h := 0 }

/-- The C2 monitor: work area (0,0,1000,700), `mfact = 0.5`,
`nmaster = 1`, clients A then B. -/
def tileMon : Monitor :=
  { sampleMon with
    mfact := 1/2, clients := [clientA, clientB] }

/-- The invariant "the selected client, if any, is in the focus stack"
(clients identified by their window handle), as an executable check. -/
def selInStackB (m : Monitor) : Bool :=
  match m.sel with
  | none => true
  | some s => m.stack.any (fun t => t.win == s.win)

/-- A monitor whose focus stack holds the selected `sampleClient` on top
of the visible `clientB`; used in the C10 witness. -/
def stackMon : Monitor :=
  { sampleMon with
    stack := [sampleClient, clientB], sel := some sampleClient }

/-! ### theorems: C4, C5, C6, C8, C9 -/

/-- C4: for every monitor state and every mask whose TAGMASK-restriction is
nonzero and differs from the currently selected tagset, `view mask` followed
by `view 0` restores `tagset[seltags]` to its value before the first call. -/
theorem view_view0_roundtrip (ui : Nat) (m : Monitor)
    (h1 : ui &&& TAGMASK ≠ 0) (h2 : ui &&& TAGMASK ≠ m.selTagset) :
    (view 0 (view ui m)).selTagset = m.selTagset := by
  have hz : (0 : Nat) &&& TAGMASK = 0 := Nat.zero_and _
  have h1' : (0 : Nat) ≠ ui &&& TAGMASK := fun h => h1 h.symm
  cases hs : m.seltags with
  | false =>
    have h2' : ui &&& TAGMASK ≠ m.tagset0 := by
      simpa [Monitor.selTagset, Monitor.tagsetAt, hs] using h2
    simp [view, Monitor.selTagset, Monitor.tagsetAt, hs, hz, h1, h1', h2']
  | true =>
    have h2' : ui &&& TAGMASK ≠ m.tagset1 := by
      simpa [Monitor.selTagset, Monitor.tagsetAt, hs] using h2
    simp [view, Monitor.selTagset, Monitor.tagsetAt, hs, hz, h1, h1', h2']

/-- C4 witness. -/
theorem view_view0_roundtrip_witness :
    (view 0 (view 2 sampleMon)).selTagset = 1 := by
  have h := view_view0_roundtrip 2 sampleMon (by decide) (by decide)
  simpa [sampleMon, Monitor.selTagset, Monitor.tagsetAt] using h

/-- C8 (amended): `view 0` never modifies either tagset slot and never
stores a new tagset, but it is not a no-op: whenever the currently
selected tagset is nonzero it toggles `seltags`, switching to the other
tagset slot (the "return to previous view" behaviour); only when the
selected tagset is zero does the guard `(arg->ui & TAGMASK) ==
tagset[seltags]` make it return immediately. -/
theorem view0_tag_state (m : Monitor) :
    (view 0 m).tagset0 = m.tagset0 ∧ (view 0 m).tagset1 = m.tagset1 ∧
    (view 0 m).seltags = (if m.selTagset = 0 then m.seltags else !m.seltags) := by
  have hz : (0 : Nat) &&& TAGMASK = 0 := Nat.zero_and _
  by_cases h : m.selTagset = 0
  · simp [view, hz, h]
  · have h' : (0 : Nat) ≠ m.selTagset := fun e => h e.symm
    simp [view, hz, h, h']

/-- C8 counterexample: on a monitor whose selected tagset is 1 (slot 0
selected), `view 0` flips `seltags`, so it is not a no-op. -/
theorem view0_not_noop :
    (view 0 sampleMon).seltags = true ∧ sampleMon.seltags = false := by
  decide

/-- C5: entering fullscreen sets `isfullscreen`, floats the client, clears
the border and moves it to the monitor's full screen rectangle; exiting
fullscreen afterwards restores the prior geometry, border width and
floating flag. -/
theorem setfullscreen_roundtrip (m : Monitor) (c : Client)
    (hfs : c.isfullscreen = false) :
    (setfullscreen m c true).isfullscreen = true ∧
    (setfullscreen m c true).isfloating = true ∧
    (setfullscreen m c true).bw = 0 ∧
    (setfullscreen m c true).x = m.mx ∧
    (setfullscreen m c true).y = m.my ∧
    (setfullscreen m c true).w = m.mw ∧
    (setfullscreen m c true).h = m.mh ∧
    (setfullscreen m (setfullscreen m c true) false).isfullscreen = false ∧
    (setfullscreen m (setfullscreen m c true) false).x = c.x ∧
    (setfullscreen m (setfullscreen m c true) false).y = c.y ∧
    (setfullscreen m (setfullscreen m c true) false).w = c.w ∧
    (setfullscreen m (setfullscreen m c true) false).h = c.h ∧
    (setfullscreen m (setfullscreen m c true) false).bw = c.bw ∧
    (setfullscreen m (setfullscreen m c true) false).isfloating = c.isfloating :=
  ⟨rfl, rfl, rfl, rfl, rfl, rfl, rfl, rfl, rfl, rfl, rfl, rfl, rfl, rfl⟩

/-- C5 witness. -/
theorem setfullscreen_roundtrip_witness :
    (setfullscreen sampleMon sampleClient true).isfullscreen = true ∧
    (setfullscreen sampleMon sampleClient true).isfloating = true ∧
    (setfullscreen sampleMon sampleClient true).bw = 0 ∧
    (setfullscreen sampleMon sampleClient true).x = sampleMon.mx ∧
    (setfullscreen sampleMon sampleClient true).y = sampleMon.my ∧
    (setfullscreen sampleMon sampleClient true).w = sampleMon.mw ∧
    (setfullscreen sampleMon sampleClient true).h = sampleMon.mh ∧
    (setfullscreen sampleMon (setfullscreen sampleMon sampleClient true)
      false).isfullscreen = false ∧
    (setfullscreen sampleMon (setfullscreen sampleMon sampleClient true)
      false).x = sampleClient.x ∧
    (setfullscreen sampleMon (setfullscreen sampleMon sampleClient true)
      false).y = sampleClient.y ∧
    (setfullscreen sampleMon (setfullscreen sampleMon sampleClient true)
      false).w = sampleClient.w ∧
    (setfullscreen sampleMon (setfullscreen sampleMon sampleClient true)
      false).h = sampleClient.h ∧
    (setfullscreen sampleMon (setfullscreen sampleMon sampleClient true)
      false).bw = sampleClient.bw ∧
    (setfullscreen sampleMon (setfullscreen sampleMon sampleClient true)
      false).isfloating = sampleClient.isfloating :=
  setfullscreen_roundtrip sampleMon sampleClient rfl

/-- C6: a single `toggletag` replaces the selected client's tags by
`tags XOR (mask & TAGMASK)` iff that value is nonzero (otherwise the tags
are unchanged), and `toggletag mask` twice is the identity on the tags
whenever both intermediate XOR results are nonzero. -/
theorem toggletag_spec (ui : Nat) (c : Client) :
    (c.tags ^^^ (ui &&& TAGMASK) ≠ 0 →
      toggletag ui (some c) =
        some { c with tags := c.tags ^^^ (ui &&& TAGMASK) }) ∧
    (c.tags ^^^ (ui &&& TAGMASK) = 0 → toggletag ui (some c) = some c) ∧
    (c.tags ^^^ (ui &&& TAGMASK) ≠ 0 → c.tags ≠ 0 →
      toggletag ui (toggletag ui (some c)) = some c) := by
  refine ⟨fun h => by simp [toggletag, h],
          fun h => by simp [toggletag, h], fun h1 h2 => ?_⟩
  have hx : (c.tags ^^^ (ui &&& TAGMASK)) ^^^ (ui &&& TAGMASK) = c.tags := by
    simp [Nat.xor_assoc]
  simp [toggletag, h1, hx, h2]

/-- C6 witness: mask 2 on tags 1 toggles to 3, and toggling twice
returns to 1. -/
theorem toggletag_spec_witness :
    toggletag 2 (some sampleClient) =
      some { sampleClient with tags := 3 } ∧
    toggletag 2 (toggletag 2 (some sampleClient)) = some sampleClient := by
  have h := toggletag_spec 2 sampleClient
  exact ⟨(h.1 (by decide)).trans rfl, h.2.2 (by decide) (by decide)⟩

/-- C9 (amended): an out-of-range target is rejected, not clamped: on a
monitor with an arranging layout, the new `mfact` equals the computed
target exactly when that target lies in [0.1, 0.9], and is left
unchanged otherwise; consequently `mfact` stays in [0.1, 0.9] whenever
it starts there. -/
theorem setmfact_range (f : ℚ) (m : Monitor) (ha : m.ltArrange = true) :
    ((1/10 ≤ setmfactTarget f m ∧ setmfactTarget f m ≤ 9/10) →
      (setmfact f m).mfact = setmfactTarget f m) ∧
    ((setmfactTarget f m < 1/10 ∨ setmfactTarget f m > 9/10) →
      (setmfact f m).mfact = m.mfact) ∧
    ((1/10 ≤ m.mfact ∧ m.mfact ≤ 9/10) →
      1/10 ≤ (setmfact f m).mfact ∧ (setmfact f m).mfact ≤ 9/10) := by
  simp only [setmfact, ha, Bool.not_true, Bool.false_eq_true, if_false]
  refine ⟨fun h => ?_, fun h => ?_, fun h => ?_⟩
  · rw [if_neg (by push_neg; exact ⟨h.1, h.2⟩)]
  · rw [if_pos h]
  · split_ifs with hb
    · exact h
    · push_neg at hb
      exact ⟨hb.1, hb.2⟩

/-- C9 witness: a relative argument +0.05 moves `mfact` from 0.55 to the
in-range target 0.6, which is adopted. -/
theorem setmfact_range_witness :
    (setmfact (1/20) sampleMon).mfact = setmfactTarget (1/20) sampleMon ∧
    (1/10 ≤ (setmfact (1/20) sampleMon).mfact ∧
      (setmfact (1/20) sampleMon).mfact ≤ 9/10) := by
  have h := setmfact_range (1/20) sampleMon rfl
  refine ⟨h.1 ⟨?_, ?_⟩, h.2.2 ⟨?_, ?_⟩⟩ <;>
    norm_num [setmfactTarget, sampleMon]

/-- C9 counterexample: with `mfact = 0.55`, a relative argument +0.5 gives
the target 1.05, which is out of range; `setmfact` leaves `mfact` at 0.55
instead of clamping it to 0.9. -/
theorem setmfact_not_clamped :
    (setmfact (1/2) sampleMon).mfact = 11/20 ∧
    setmfactTarget (1/2) sampleMon = 21/20 ∧
    (setmfact (1/2) sampleMon).mfact ≠ 9/10 := by
  refine ⟨?_, ?_, ?_⟩ <;> norm_num [setmfact, setmfactTarget, sampleMon]

/-! ### theorems: C7 (applysizehints) -/

/-- `MAX(1, v)` is at least 1. -/
theorem cMAX_one_le (v : Int) : 1 ≤ cMAX 1 v := by
  unfold cMAX; split_ifs <;> omega

/-- The x clamps do nothing when the requested x lies inside the relevant
area and the width is positive. -/
theorem ashPosX_id (m : Monitor) (sw : Int) (c : Client) (interact : Bool)
    (x w : Int) (hbw : 0 ≤ c.bw) (hw : 1 ≤ w)
    (hx : if interact = true then 0 ≤ x ∧ x ≤ sw
          else m.wx ≤ x ∧ x < m.wx + m.ww) :
    ashPosX m sw c interact x w = x := by
  cases interact with
  | false =>
    rw [if_neg (by simp)] at hx
    unfold ashPosX
    simp only [Bool.false_eq_true, if_false]
    split_ifs <;> omega
  | true =>
    rw [if_pos rfl] at hx
    unfold ashPosX
    simp only [if_true]
    split_ifs <;> omega

/-- The y clamps do nothing when the requested y lies inside the relevant
area and the height is positive. -/
theorem ashPosY_id (m : Monitor) (sh : Int) (c : Client) (interact : Bool)
    (y h : Int) (hbw : 0 ≤ c.bw) (hh : 1 ≤ h)
    (hy : if interact = true then 0 ≤ y ∧ y ≤ sh
          else m.wy ≤ y ∧ y < m.wy + m.wh) :
    ashPosY m sh c interact y h = y := by
  cases interact with
  | false =>
    rw [if_neg (by simp)] at hy
    unfold ashPosY
    simp only [Bool.false_eq_true, if_false]
    split_ifs <;> omega
  | true =>
    rw [if_pos rfl] at hy
    unfold ashPosY
    simp only [if_true]
    split_ifs <;> omega

/-- With zero increments and no aspect constraint, the hint block reduces
to min/max clamping: the base dimensions are subtracted and added back. -/
theorem hintAdjust_no_inc_aspect (c : Client) (w h : Int)
    (hincw : c.incw = 0) (hinch : c.inch = 0)
    (hasp : c.mina ≤ 0 ∨ c.maxa ≤ 0) :
    hintAdjust c w h =
      ((if c.maxw ≠ 0 then cMIN (cMAX w c.minw) c.maxw else cMAX w c.minw),
       (if c.maxh ≠ 0 then cMIN (cMAX h c.minh) c.maxh
        else cMAX h c.minh)) := by
  have hg : ¬(0 < c.mina ∧ 0 < c.maxa) := by
    rcases hasp with h1 | h1
    · exact fun hh => absurd hh.1 (not_lt.mpr h1)
    · exact fun hh => absurd hh.2 (not_lt.mpr h1)
  by_cases hb : (c.basew = c.minw ∧ c.baseh = c.minh) <;>
    simp [hintAdjust, hb, hg, hincw, hinch, sub_add_cancel]

/-- Under the hypotheses of C7's amended statement, `applysizehints`
returns the requested position unchanged and clamps the two sizes
independently. -/
theorem applysizehints_eval (bh sw sh : Int) (m : Monitor) (c : Client)
    (x y w h : Int) (interact : Bool)
    (hincw : c.incw = 0) (hinch : c.inch = 0)
    (hasp : c.mina ≤ 0 ∨ c.maxa ≤ 0) (hbw : 0 ≤ c.bw)
    (hpos : if interact = true then 0 ≤ x ∧ x ≤ sw ∧ 0 ≤ y ∧ y ≤ sh
            else m.wx ≤ x ∧ x < m.wx + m.ww ∧ m.wy ≤ y ∧ y < m.wy + m.wh) :
    applysizehints bh sw sh m c x y w h interact =
      (x, y, ashSizeW c bh w, ashSizeH c bh h) := by
  have hx : ashPosX m sw c interact x (cMAX 1 w) = x := by
    refine ashPosX_id m sw c interact x _ hbw (cMAX_one_le w) ?_
    cases interact <;> simp_all
  have hy : ashPosY m sh c interact y (cMAX 1 h) = y := by
    refine ashPosY_id m sh c interact y _ hbw (cMAX_one_le h) ?_
    cases interact <;> simp_all
  simp only [applysizehints, resizehints, Bool.true_or, if_true, hx, hy,
    hintAdjust_no_inc_aspect c _ _ hincw hinch hasp]
  simp only [ashSizeW, ashSizeH]

/-- The clamped width is positive when `maxw` is nonnegative. -/
theorem ashSizeW_ge_one (c : Client) (bh w : Int) (hmaxw : 0 ≤ c.maxw) :
    1 ≤ ashSizeW c bh w := by
  simp only [ashSizeW, cMAX, cMIN]; split_ifs <;> omega

/-- Fixed points of the width pipeline: any value at least 1, `bh` and
`minw` and compatible with `maxw` — or equal to a nonzero `maxw` — is
left unchanged. -/
theorem ashSizeW_fix (c : Client) (bh u : Int)
    (hu : (1 ≤ u ∧ bh ≤ u ∧ c.minw ≤ u ∧ (c.maxw = 0 ∨ u ≤ c.maxw)) ∨
          (c.maxw ≠ 0 ∧ u = c.maxw)) :
    ashSizeW c bh u = u := by
  simp only [ashSizeW, cMAX, cMIN]
  split_ifs <;> omega

/-- Every output of the width pipeline satisfies the fixed-point
characterization. -/
theorem ashSizeW_char (c : Client) (bh w : Int) :
    (1 ≤ ashSizeW c bh w ∧ bh ≤ ashSizeW c bh w ∧
      c.minw ≤ ashSizeW c bh w ∧
      (c.maxw = 0 ∨ ashSizeW c bh w ≤ c.maxw)) ∨
    (c.maxw ≠ 0 ∧ ashSizeW c bh w = c.maxw) := by
  simp only [ashSizeW, cMAX, cMIN]
  split_ifs <;> omega

/-- The width pipeline is idempotent. -/
theorem ashSizeW_idem (c : Client) (bh w : Int) :
    ashSizeW c bh (ashSizeW c bh w) = ashSizeW c bh w :=
  ashSizeW_fix c bh _ (ashSizeW_char c bh w)

/-- Fixed points of the height pipeline, mirror of `ashSizeW_fix`. -/
theorem ashSizeH_fix (c : Client) (bh u : Int)
    (hu : (1 ≤ u ∧ bh ≤ u ∧ c.minh ≤ u ∧ (c.maxh = 0 ∨ u ≤ c.maxh)) ∨
          (c.maxh ≠ 0 ∧ u = c.maxh)) :
    ashSizeH c bh u = u := by
  simp only [ashSizeH, cMAX, cMIN]
  split_ifs <;> omega

/-- Every output of the height pipeline satisfies the fixed-point
characterization. -/
theorem ashSizeH_char (c : Client) (bh h : Int) :
    (1 ≤ ashSizeH c bh h ∧ bh ≤ ashSizeH c bh h ∧
      c.minh ≤ ashSizeH c bh h ∧
      (c.maxh = 0 ∨ ashSizeH c bh h ≤ c.maxh)) ∨
    (c.maxh ≠ 0 ∧ ashSizeH c bh h = c.maxh) := by
  simp only [ashSizeH, cMAX, cMIN]
  split_ifs <;> omega

/-- The height pipeline is idempotent. -/
theorem ashSizeH_idem (c : Client) (bh h : Int) :
    ashSizeH c bh (ashSizeH c bh h) = ashSizeH c bh h :=
  ashSizeH_fix c bh _ (ashSizeH_char c bh h)

/-- The clamped height is positive when `maxh` is nonnegative. -/
theorem ashSizeH_ge_one (c : Client) (bh h : Int) (hmaxh : 0 ≤ c.maxh) :
    1 ≤ ashSizeH c bh h := by
  simp only [ashSizeH, cMAX, cMIN]; split_ifs <;> omega

/-- C7 (amended): `applysizehints` is idempotent for clients with a
nonnegative border, without increment hints and without aspect
constraints, on requests whose position lies inside the clamping area
(the screen for interactive calls, the monitor work area otherwise).
With increment hints the function is not idempotent (see the
counterexample). -/
theorem applysizehints_idem (bh sw sh : Int) (m : Monitor) (c : Client)
    (x y w h : Int) (interact : Bool)
    (hincw : c.incw = 0) (hinch : c.inch = 0)
    (hasp : c.mina ≤ 0 ∨ c.maxa ≤ 0) (hbw : 0 ≤ c.bw)
    (hpos : if interact = true then 0 ≤ x ∧ x ≤ sw ∧ 0 ≤ y ∧ y ≤ sh
            else m.wx ≤ x ∧ x < m.wx + m.ww ∧ m.wy ≤ y ∧ y < m.wy + m.wh) :
    applysizehints bh sw sh m c
      (applysizehints bh sw sh m c x y w h interact).1
      (applysizehints bh sw sh m c x y w h interact).2.1
      (applysizehints bh sw sh m c x y w h interact).2.2.1
      (applysizehints bh sw sh m c x y w h interact).2.2.2 interact =
    applysizehints bh sw sh m c x y w h interact := by
  rw [applysizehints_eval bh sw sh m c x y w h interact
    hincw hinch hasp hbw hpos]
  show applysizehints bh sw sh m c x y
    (ashSizeW c bh w) (ashSizeH c bh h) interact =
    (x, y, ashSizeW c bh w, ashSizeH c bh h)
  rw [applysizehints_eval bh sw sh m c x y _ _ interact
    hincw hinch hasp hbw hpos, ashSizeW_idem, ashSizeH_idem]

/-- C7 witness: a hint-free floating client and an in-area request. -/
theorem applysizehints_idem_witness :
    applysizehints 0 1000 700 sampleMon sampleClient
      (applysizehints 0 1000 700 sampleMon sampleClient
        100 100 400 300 false).1
      (applysizehints 0 1000 700 sampleMon sampleClient
        100 100 400 300 false).2.1
      (applysizehints 0 1000 700 sampleMon sampleClient
        100 100 400 300 false).2.2.1
      (applysizehints 0 1000 700 sampleMon sampleClient
        100 100 400 300 false).2.2.2 false =
    applysizehints 0 1000 700 sampleMon sampleClient 100 100 400 300 false :=
  applysizehints_idem 0 1000 700 sampleMon sampleClient 100 100 400 300 false
    rfl rfl (Or.inl (by norm_num [sampleClient])) (by decide) (by decide)

/-- C7 counterexample: on `incClient`, a request of width 100 is adjusted
to width 7 (increment rounding `100 -> 99`, then `MIN` with `maxw = 7`),
but applying `applysizehints` again to the result gives width 6
(`7 - 7 % 3 = 6`), so the function is not idempotent as claimed. -/
theorem applysizehints_not_idem :
    applysizehints 0 1000 700 sampleMon incClient
      (applysizehints 0 1000 700 sampleMon incClient 0 0 100 50 false).1
      (applysizehints 0 1000 700 sampleMon incClient 0 0 100 50 false).2.1
      (applysizehints 0 1000 700 sampleMon incClient 0 0 100 50 false).2.2.1
      (applysizehints 0 1000 700 sampleMon incClient 0 0 100 50 false).2.2.2
      false ≠
    applysizehints 0 1000 700 sampleMon incClient 0 0 100 50 false := by
  decide

/-! ### theorems: C3 (monocle) -/

/-- `resize` always leaves the client with exactly the geometry computed
by `applysizehints` (committed when dirty, already in place otherwise),
and touches no other field. -/
theorem resize_fields (bh sw sh : Int) (m : Monitor) (c : Client)
    (x y w h : Int) (interact : Bool) :
    (resize bh sw sh m c x y w h interact).x =
      (applysizehints bh sw sh m c x y w h interact).1 ∧
    (resize bh sw sh m c x y w h interact).y =
      (applysizehints bh sw sh m c x y w h interact).2.1 ∧
    (resize bh sw sh m c x y w h interact).w =
      (applysizehints bh sw sh m c x y w h interact).2.2.1 ∧
    (resize bh sw sh m c x y w h interact).h =
      (applysizehints bh sw sh m c x y w h interact).2.2.2 := by
  simp only [resize]
  split_ifs with hd
  · simp [resizeclient]
  · simp only [not_or, not_not] at hd
    exact ⟨hd.1.symm, hd.2.1.symm, hd.2.2.1.symm, hd.2.2.2.symm⟩

/-- `resize` does not change any field other than the geometry and the
saved previous geometry. -/
theorem resize_preserves (bh sw sh : Int) (m : Monitor) (c : Client)
    (x y w h : Int) (interact : Bool) :
    (resize bh sw sh m c x y w h interact).win = c.win ∧
    (resize bh sw sh m c x y w h interact).tags = c.tags ∧
    (resize bh sw sh m c x y w h interact).isfloating = c.isfloating ∧
    (resize bh sw sh m c x y w h interact).bw = c.bw ∧
    (resize bh sw sh m c x y w h interact).basew = c.basew ∧
    (resize bh sw sh m c x y w h interact).baseh = c.baseh ∧
    (resize bh sw sh m c x y w h interact).incw = c.incw ∧
    (resize bh sw sh m c x y w h interact).inch = c.inch ∧
    (resize bh sw sh m c x y w h interact).maxw = c.maxw ∧
    (resize bh sw sh m c x y w h interact).maxh = c.maxh ∧
    (resize bh sw sh m c x y w h interact).minw = c.minw ∧
    (resize bh sw sh m c x y w h interact).minh = c.minh ∧
    (resize bh sw sh m c x y w h interact).mina = c.mina ∧
    (resize bh sw sh m c x y w h interact).maxa = c.maxa := by
  simp only [resize]
  split_ifs <;> simp [resizeclient]

/-- C3 (amended): on a monitor running monocle with at least one visible
client, the layout symbol is overwritten with `"[N]"`, `N` the number of
visible clients, and every visible non-floating client whose size hints
impose no constraint (and whose border fits the work area) ends with
geometry exactly `(wx, wy, ww - 2 bw, wh - 2 bw)`.  For a client with
constraining size hints the final geometry is the hint-adjusted
rectangle instead (see the counterexample). -/
theorem monocle_spec (bh sw sh : Int) (m : Monitor)
    (hvis : ∃ c ∈ m.clients, ISVISIBLE m c = true) :
    ((monocle bh sw sh m).ltsymbol =
      "[" ++ toString (m.clients.filter (ISVISIBLE m)).length ++ "]") ∧
    ∀ c2 ∈ (monocle bh sw sh m).clients,
      c2.isfloating = false → ISVISIBLE m c2 = true → trivialHints c2 →
      0 ≤ c2.bw → 1 ≤ m.ww - 2 * c2.bw → 1 ≤ m.wh - 2 * c2.bw →
      bh ≤ m.ww - 2 * c2.bw → bh ≤ m.wh - 2 * c2.bw →
      c2.x = m.wx ∧ c2.y = m.wy ∧
      c2.w = m.ww - 2 * c2.bw ∧ c2.h = m.wh - 2 * c2.bw := by
  constructor
  · obtain ⟨c, hc, hcv⟩ := hvis
    have hmem : c ∈ m.clients.filter (ISVISIBLE m) :=
      List.mem_filter.mpr ⟨hc, hcv⟩
    have hlen : 0 < (m.clients.filter (ISVISIBLE m)).length :=
      List.length_pos.mpr (fun he => by simp [he] at hmem)
    simp only [monocle]
    rw [if_pos hlen]
  · intro c2 hc2 hfl hvis2 hth hbw hw1 hh1 hwbh hhbh
    simp only [monocle, List.mem_map] at hc2
    obtain ⟨c, hc, hc2eq⟩ := hc2
    by_cases hcase : (!c.isfloating && ISVISIBLE m c) = true
    · subst hc2eq
      rw [if_pos hcase] at hfl hvis2 hth hbw hw1 hh1 hwbh hhbh ⊢
      -- the resized client's geometry is the applysizehints output
      obtain ⟨hx, hy, hw, hh⟩ := resize_fields bh sw sh m c m.wx m.wy
        (m.ww - 2 * c.bw) (m.wh - 2 * c.bw) false
      obtain ⟨-, -, -, hpbw, hpbasew, hpbaseh, hpincw, hpinch, hpmaxw,
        hpmaxh, hpminw, hpminh, hpmina, hpmaxa⟩ := resize_preserves bh sw sh
        m c m.wx m.wy (m.ww - 2 * c.bw) (m.wh - 2 * c.bw) false
      rw [hpbw] at hbw hw1 hh1 hwbh hhbh
      obtain ⟨htbw, htbh, htiw, htih, htmw, htmh, htnw, htnh, htna, htxa⟩ :
          trivialHints c := by
        revert hth
        unfold trivialHints
        rw [hpbasew, hpbaseh, hpincw, hpinch, hpmaxw, hpmaxh, hpminw,
          hpminh, hpmina, hpmaxa]
        exact id
      have heval := applysizehints_eval bh sw sh m c m.wx m.wy
        (m.ww - 2 * c.bw) (m.wh - 2 * c.bw) false htiw htih
        (Or.inl (le_of_eq htna)) (by omega)
        (by
          rw [if_neg (by simp)]
          refine ⟨le_refl _, by omega, le_refl _, by omega⟩)
      have hW : ashSizeW c bh (m.ww - 2 * c.bw) = m.ww - 2 * c.bw :=
        ashSizeW_fix c bh _ (Or.inl ⟨hw1, hwbh, by omega, Or.inl htmw⟩)
      have hH : ashSizeH c bh (m.wh - 2 * c.bw) = m.wh - 2 * c.bw :=
        ashSizeH_fix c bh _ (Or.inl ⟨hh1, hhbh, by omega, Or.inl htmh⟩)
      rw [heval] at hx hy hw hh
      simp only at hx hy hw hh
      rw [hW] at hw
      rw [hH] at hh
      exact ⟨hx, hy, by rw [hw, hpbw], by rw [hh, hpbw]⟩
    · subst hc2eq
      rw [if_neg hcase] at hfl hvis2
      simp [hfl, hvis2] at hcase

/-- C3 witness. -/
theorem monocle_spec_witness :
    ((monocle 0 1000 700 monoMon).ltsymbol =
      "[" ++ toString (monoMon.clients.filter (ISVISIBLE monoMon)).length
        ++ "]") ∧
    ∀ c2 ∈ (monocle 0 1000 700 monoMon).clients,
      c2.isfloating = false → ISVISIBLE monoMon c2 = true →
      trivialHints c2 → 0 ≤ c2.bw →
      1 ≤ monoMon.ww - 2 * c2.bw → 1 ≤ monoMon.wh - 2 * c2.bw →
      (0 : Int) ≤ monoMon.ww - 2 * c2.bw →
      (0 : Int) ≤ monoMon.wh - 2 * c2.bw →
      c2.x = monoMon.wx ∧ c2.y = monoMon.wy ∧
      c2.w = monoMon.ww - 2 * c2.bw ∧ c2.h = monoMon.wh - 2 * c2.bw :=
  monocle_spec 0 1000 700 monoMon
    ⟨sampleClient, by simp [monoMon], by decide⟩

/-- C3 counterexample: under monocle the `minw = 2000` client ends with
width 2000, not `ww - 2 bw = 1000`: size hints are applied
(`resizehints = True`), so the claimed exact geometry does not hold for
every visible tiled client. -/
theorem monocle_not_exact :
    ((monocle 0 1000 700 minwMon).clients.map Client.isfloating) = [false] ∧
    ((monocle 0 1000 700 minwMon).clients.map (ISVISIBLE minwMon)) = [true] ∧
    ((monocle 0 1000 700 minwMon).clients.map Client.bw) = [0] ∧
    ((monocle 0 1000 700 minwMon).clients.map Client.w) = [2000] ∧
    minwMon.ww = 1000 ∧ minwMon.wh = 700 ∧ (2000 : Int) ≠ 1000 - 2 * 0 := by
  refine ⟨by decide, by decide, by decide, by decide, by decide, by decide,
    by decide⟩

/-! ### theorems: C2 (tile, concrete instance) -/

/-- C2: with work area (0,0,1000,700), no bar, `mfact = 0.5`,
`nmaster = 1` and two tiled border-1 hint-free clients A then B, `tile`
puts A at inner geometry (0,0,498,698) — outer extent 500x700 from
(0,0) — and B at inner geometry (500,0,498,698). -/
theorem tile_two_clients :
    ((tile 0 1000 700 tileMon).clients.map
      (fun c => (c.x, c.y, c.w, c.h))) =
      [(0, 0, 498, 698), (500, 0, 498, 698)] ∧
    ((tile 0 1000 700 tileMon).clients.map WIDTH) = [500, 500] ∧
    ((tile 0 1000 700 tileMon).clients.map HEIGHT) = [700, 700] := by
  have hn : (nexttiledList tileMon tileMon.clients).length = 2 := by decide
  have hnm : tileMon.nmaster = 1 := rfl
  have h5 : ((tileMon.ww : Int) : ℚ) * tileMon.mfact = 500 := by
    norm_num [tileMon, sampleMon]
  have hmw : cTrunc ((tileMon.ww : Int) * tileMon.mfact) = 500 := by
    rw [h5]; decide
  have key : tile 0 1000 700 tileMon =
      { tileMon with
        clients := tileLoop 0 1000 700 tileMon 2 500 tileMon.clients 0 0 0 } := by
    simp only [tile, hn, hnm, hmw]
    norm_num
  rw [key]
  refine ⟨by decide, by decide, by decide⟩

/-! ### theorems: C1 (applyrules, code bug) -/

/-- C1 failing input, evaluated: for a client of class "Firefox" (empty
name and instance) on a monitor viewing tag 1, the union of matching
rule tag masks is `1 << 8 = 256` (nonzero after TAGMASK), yet
`applyrules` leaves the client's tags equal to the monitor's current
tagset 1: the assignment `c->tags = c->mon->tagset[c->mon->seltags];`
at the end of `applyrules` discards the rule tags accumulated by the
loop, making the following ternary line dead. -/
theorem applyrules_drops_rule_tags :
    matchedRuleTags [] "Firefox".toList [] &&& TAGMASK = 256 ∧
    matchedRuleTags [] "Firefox".toList [] &&& TAGMASK ≠ 0 ∧
    (applyrules [] "Firefox".toList [] [sampleMon] sampleMon).1 = 1 ∧
    (applyrules [] "Firefox".toList [] [sampleMon] sampleMon).1 ≠
      matchedRuleTags [] "Firefox".toList [] &&& TAGMASK := by
  refine ⟨by decide, by decide, by decide, by decide⟩

/-! ### theorems: C10 (detachstack) -/

/-- An element not satisfying `p` survives `List.eraseP p`. -/
theorem mem_eraseP_of_not {α : Type} (p : α → Bool) (t : α) (l : List α)
    (h : t ∈ l) (hp : p t = false) : t ∈ l.eraseP p := by
  induction l with
  | nil => simp at h
  | cons a tl ih =>
    rw [List.eraseP_cons]
    rcases List.mem_cons.mp h with h1 | h1
    · subst h1; simp [hp]
    · by_cases hpa : p a
      · simp [hpa, h1]
      · simp only [hpa, cond_false, List.mem_cons]
        exact Or.inr (ih h1)

/-- C10: when `detachstack` removes the selected client, the selection is
reassigned to the topmost visible client of the remaining stack (`none`
when there is none); and `detachstack` preserves the invariant that the
selected client is present in the stack. -/
theorem detachstack_sel_invariant (c : Client) (m : Monitor) :
    (∀ s, m.sel = some s → s.win = c.win →
      (detachstack c m).sel =
        (m.stack.eraseP (fun t => t.win == c.win)).find? (ISVISIBLE m)) ∧
    (selInStackB m = true → selInStackB (detachstack c m) = true) := by
  constructor
  · intro s hs hw
    simp [detachstack, hs, hw]
  · intro hinv
    rcases hm : m.sel with _ | s
    · simp only [detachstack, hm]
      rcases hf : (m.stack.eraseP (fun t => t.win == c.win)).find?
          (ISVISIBLE m) with _ | t
      · simp [selInStackB]
      · simp [selInStackB]
    · by_cases hw : s.win = c.win
      · simp only [detachstack, hm, hw]
        rcases hf : (m.stack.eraseP (fun t => t.win == c.win)).find?
            (ISVISIBLE m) with _ | t
        · simp [selInStackB, hf]
        · have ht := List.mem_of_find?_eq_some hf
          simp only [selInStackB, hf]
          simp only [beq_self_eq_true, if_true]
          rw [List.any_eq_true]
          exact ⟨t, by simpa [hf] using ht, by simp⟩
      · simp only [selInStackB, hm] at hinv
        rw [List.any_eq_true] at hinv
        obtain ⟨t, htmem, htw⟩ := hinv
        rw [beq_iff_eq] at htw
        have htnc : (t.win == c.win) = false := by
          rw [beq_eq_false_iff_ne]
          rw [htw]; exact hw
        have hsurv := mem_eraseP_of_not (fun u => u.win == c.win) t
          m.stack htmem htnc
        have hwb : (s.win == c.win) = false := by
          rw [beq_eq_false_iff_ne]; exact hw
        simp only [detachstack, hm, hwb, Bool.false_eq_true, if_false,
          selInStackB]
        rw [List.any_eq_true]
        exact ⟨t, hsurv, by rw [beq_iff_eq]; exact htw⟩


/-- C10 witness: removing the selected client of `stackMon` moves the
selection to the topmost visible client left in the stack, and the
selected-in-stack invariant is preserved. -/
theorem detachstack_sel_invariant_witness :
    (detachstack sampleClient stackMon).sel =
      ((stackMon.stack.eraseP (fun t => t.win == sampleClient.win)).find?
        (ISVISIBLE stackMon)) ∧
    selInStackB (detachstack sampleClient stackMon) = true :=
  ⟨(detachstack_sel_invariant sampleClient stackMon).1 sampleClient rfl rfl,
   (detachstack_sel_invariant sampleClient stackMon).2 (by decide)⟩
